import Mathlib

/-!
Shallow embedding of the engagement-bot core of the Astronomy-of-the-Day
repository (`engagement.py`): the idempotent interaction ledger, its JSON
persistence, the bounded freshness cache for recent bot tweets, the
reply/repost engagement cycle, and the timer scheduling of the two cycle
kinds.  Identifiers are modelled as strings (the spec treats them as opaque
identifiers); timestamps are modelled as integer seconds; results of external
calls (the Twitter client, the text generator) are passed in as explicit
oracle arguments, mirroring each call site.
-/

/-- Interaction kinds tracked by the ledger: replies to the bot's tweets and
reposts of the bot's content (`replied_to` / `commented_reposts` in
`engagement.py`). -/
inductive Kind where
  | reply
  | repost
deriving Repr, DecidableEq

/-- In-memory ledger `self.processed_interactions`: two Python sets of
identifiers, modelled as lists used with set semantics (membership test and
insert-if-absent). -/
structure InteractionLedger where
  replied_to : List String
  commented_reposts : List String
deriving Repr, DecidableEq

/-- Ledger with both sets empty, the value `load_processed_interactions`
returns on a missing or corrupt store. -/
def emptyLedger : InteractionLedger := ⟨[], []⟩

/-- Set of the ledger relevant to an interaction kind. -/
def ledgerSet (L : InteractionLedger) : Kind → List String
  | .reply => L.replied_to
  | .repost => L.commented_reposts

/-- Membership check `id in self.processed_interactions[...]`. -/
def hasActed (L : InteractionLedger) (k : Kind) (id : String) : Bool :=
  (ledgerSet L k).contains id

/-- Recording an acted id, `self.processed_interactions[...].add(id)`:
Python set add, i.e. insert-if-absent. -/
def recordActed (L : InteractionLedger) (k : Kind) (id : String) :
    InteractionLedger :=
  match k with
  | .reply => { L with replied_to := L.replied_to.insert id }
  | .repost => { L with commented_reposts := L.commented_reposts.insert id }

/-- The record written by `save_processed_interactions`: the two sets
converted to lists, under the JSON keys `replied_to` and
`commented_reposts`. -/
structure StoredData where
  replied_to : List String
  commented_reposts : List String
deriving Repr, DecidableEq

/-- `save_processed_interactions`: serializes both sets to lists for the
JSON dump (`list(self.processed_interactions[...])`). -/
def save_processed_interactions (L : InteractionLedger) : StoredData :=
  ⟨L.replied_to, L.commented_reposts⟩

/-- JSON values, as far as the persisted ledger file is concerned.  Stored
ids are modelled as JSON strings. -/
inductive JsonValue where
  | jnull
  | jbool (b : Bool)
  | jnum (n : Int)
  | jstr (s : String)
  | jarr (xs : List JsonValue)
  | jobj (fields : List (String × JsonValue))

/-- Encoding of the stored record as the JSON document
`json.dump(data, f)` writes: an object with the two id lists. -/
def encodeStored (d : StoredData) : JsonValue :=
  .jobj [("replied_to", .jarr (d.replied_to.map .jstr)),
         ("commented_reposts", .jarr (d.commented_reposts.map .jstr))]

/-- State of the persisted file as seen by `load_processed_interactions`:
the file may be absent (`PROCESSED_FILE.exists()` is false), present but
rejected by `json.load` (which raises), or parsed into a JSON value. -/
inductive FileState where
  | missing
  | unparseable
  | parsed (v : JsonValue)

/-- Extraction of a list of ids from a JSON value, element by element.  An
element of any shape other than a string is treated as the raising case
(caught by the `except` clause of the loader). -/
def idsOf : List JsonValue → Option (List String)
  | [] => some []
  | .jstr s :: rest => (idsOf rest).map (fun l => s :: l)
  | _ :: _ => none

/-- `data.get(key, [])` on the parsed JSON object: the value under the first
binding of `key`, defaulting to an empty array when the key is absent. -/
def jget (fields : List (String × JsonValue)) (key : String) : JsonValue :=
  match fields.find? (fun p => p.1 == key) with
  | some p => p.2
  | none => .jarr []

/-- The body of the loader's `try` block on a parsed JSON value: the value
must be an object (`data.get` on anything else raises) and each of the two
fields must extract to a list of ids; `none` models the exception path. -/
def decodeStored : JsonValue → Option StoredData
  | .jobj fields => do
      let r ← match jget fields "replied_to" with
        | .jarr xs => idsOf xs
        | _ => none
      let c ← match jget fields "commented_reposts" with
        | .jarr xs => idsOf xs
        | _ => none
      pure ⟨r, c⟩
  | _ => none

/-- `load_processed_interactions`: on a parsed file, convert the two stored
lists back to sets (`set(data.get(...))`, modelled as `dedup`); on a missing
file, an unparseable file, or any exception inside the `try` block, return
the empty ledger. -/
def load_processed_interactions : FileState → InteractionLedger
  | .parsed v =>
      match decodeStored v with
      | some d => ⟨d.replied_to.dedup, d.commented_reposts.dedup⟩
      | none => emptyLedger
  | _ => emptyLedger

-- Basic ledger lemmas

theorem hasActed_recordActed_self (L : InteractionLedger) (k : Kind)
    (id : String) : hasActed (recordActed L k id) k id = true := by
  cases k <;>
    simp [hasActed, recordActed, ledgerSet, List.contains, List.elem_iff,
      List.mem_insert_iff]

theorem hasActed_mono (L : InteractionLedger) (k k' : Kind) (id id' : String)
    (h : hasActed L k id = true) :
    hasActed (recordActed L k' id') k id = true := by
  cases k <;> cases k' <;>
    simp_all [hasActed, recordActed, ledgerSet, List.contains, List.elem_iff,
      List.mem_insert_iff]

theorem recordActed_idem (L : InteractionLedger) (k : Kind) (id : String) :
    recordActed (recordActed L k id) k id = recordActed L k id := by
  cases k <;>
    simp [recordActed, List.insert_of_mem, List.mem_insert_self]

/-- Lowercasing of a text, `text.lower()` (texts are modelled as lists of
characters, folded character by character). -/
def lowerStr (s : List Char) : List Char := s.map Char.toLower

/-- Python's `needle in hay` prefix step: does `hay` start with `needle`. -/
def startsWith : List Char → List Char → Bool
  | _, [] => true
  | [], _ :: _ => false
  | c :: cs, d :: ds => c == d && startsWith cs ds

/-- Python's substring test `needle in hay` on strings: `needle` occurs
contiguously somewhere in `hay`. -/
def containsSubstr (needle : List Char) : List Char → Bool
  | [] => needle.isEmpty
  | c :: rest => startsWith (c :: rest) needle || containsSubstr needle rest

/-- `contains_blacklisted_keywords`: lowers the text, then tests each
configured keyword, as configured, for substring occurrence in the lowered
text (the keyword itself is not lowered). -/
def contains_blacklisted_keywords (keywords : List (List Char))
    (text : List Char) : Bool :=
  keywords.any (fun kw => containsSubstr kw (lowerStr text))

/-- A tweet as the cache and the engagement loops see it: an id, a text and
an optional creation timestamp (`created_at` may be absent on the wire). -/
structure Tweet where
  id : String
  text : List Char
  created_at : Option Int
deriving Repr, DecidableEq

/-- `self.tweets_cache`: the cached snapshot of the bot's recent tweets,
its fetch timestamp and the configured cache duration in minutes. -/
structure TweetsCache where
  data : Option (List Tweet)
  timestamp : Option Int
  cache_duration_minutes : Int
deriving Repr, DecidableEq

/-- `is_cache_valid`: false when no data or no timestamp is stored,
otherwise true exactly when the cache age in seconds is strictly below the
configured duration. -/
def is_cache_valid (c : TweetsCache) (now : Int) : Bool :=
  match c.data, c.timestamp with
  | none, _ => false
  | some _, none => false
  | some _, some ts => decide (now - ts < c.cache_duration_minutes * 60)

/-- The recency filter applied in every branch of `get_recent_bot_tweets`:
keep a tweet when its `created_at` is present and at least
`now - hours` (timestamps in seconds, `timedelta(hours=hours)`). -/
def filterRecent (now : Int) (hours : Int) (ts : List Tweet) : List Tweet :=
  ts.filter (fun t =>
    match t.created_at with
    | some c => decide (now - hours * 3600 ≤ c)
    | none => false)

/-- `get_recent_bot_tweets`: serve the filtered cached snapshot while the
cache is valid; otherwise attempt the external fetch (its outcome passed as
`fetch`): on success with data, cache the fetched tweets wholesale with the
current timestamp and serve them filtered, on success with no data return
an empty list leaving the cache untouched, on an exception fall back to the
stale snapshot if one exists, else return an empty list.  Returns the
served tweets together with the cache state after the call. -/
def get_recent_bot_tweets (c : TweetsCache) (now : Int) (hours : Int)
    (fetch : Except Unit (List Tweet)) : List Tweet × TweetsCache :=
  if is_cache_valid c now then
    (filterRecent now hours (c.data.getD []), c)
  else
    match fetch with
    | .ok tdata =>
        if tdata.isEmpty then ([], c)
        else (filterRecent now hours tdata,
              { c with data := some tdata, timestamp := some now })
    | .error _ =>
        match c.data with
        | some cached => (filterRecent now hours cached, c)
        | none => ([], c)

/-- A candidate discovered by `search_recent_tweets`: a reply to (or repost
of) one of the bot's tweets. -/
structure Reply where
  id : String
  author_id : String
  text : List Char
deriving Repr, DecidableEq

/-- Observable events of one engagement cycle, in order: `act id` when the
remote `create_tweet` call for a candidate succeeds, `record id` when the
id is added to the in-memory set, `persistEv d` when
`save_processed_interactions` writes the record `d`. -/
inductive Event where
  | act (id : String)
  | record (id : String)
  | persistEv (d : StoredData)
deriving Repr, DecidableEq

/-- The parts of `ENGAGEMENT_CONFIG` (plus the bot's own user id) that the
engagement loops read. -/
structure EngagementConfig where
  max_replies_per_check : Nat
  max_repost_comments_per_check : Nat
  blacklist_keywords : List (List Char)
  bot_user_id : String
deriving Repr, DecidableEq

/-- Per-cycle action maximum for an interaction kind
(`max_replies_per_check` / `max_repost_comments_per_check`). -/
def maxFor (cfg : EngagementConfig) : Kind → Nat
  | .reply => cfg.max_replies_per_check
  | .repost => cfg.max_repost_comments_per_check

/-- Running state of one engagement cycle: the ledger, the per-cycle action
counter (`reply_count` / `comment_count`, starting at zero) and the events
emitted so far. -/
structure CycleState where
  ledger : InteractionLedger
  count : Nat
  events : List Event
deriving Repr, DecidableEq

/-- Handling of one candidate inside the inner loop of `process_replies` /
`process_reposts`: skip it when it is already in the ledger, authored by
the bot itself, or blacklisted; otherwise generate a message (generation
always yields a message thanks to its static fallbacks) and attempt the
remote post, whose outcome the oracle `post` gives per candidate id.  On
success the id is added to the in-memory set and the counter incremented;
a failed post is caught and changes nothing. -/
def processOneReply (k : Kind) (cfg : EngagementConfig)
    (post : String → Bool) (s : CycleState) (r : Reply) : CycleState :=
  if hasActed s.ledger k r.id then s
  else if r.author_id == cfg.bot_user_id then s
  else if contains_blacklisted_keywords cfg.blacklist_keywords r.text then s
  else if post r.id then
    { ledger := recordActed s.ledger k r.id,
      count := s.count + 1,
      events := s.events ++ [Event.act r.id, Event.record r.id] }
  else s

/-- Inner loop over the candidates found for one bot tweet; after each
candidate the loop breaks as soon as the counter has reached the per-cycle
maximum. -/
def processReplyList (k : Kind) (cfg : EngagementConfig)
    (post : String → Bool) : CycleState → List Reply → CycleState
  | s, [] => s
  | s, r :: rest =>
      if maxFor cfg k ≤ (processOneReply k cfg post s r).count then
        processOneReply k cfg post s r
      else processReplyList k cfg post (processOneReply k cfg post s r) rest

/-- Outer loop over the bot's recent tweets: each element is the outcome of
the `search_recent_tweets` call for one tweet — an exception (caught and
skipped) or a list of candidates (`replies.data`, empty standing for no
data).  The loop breaks at the top once the counter has reached the
per-cycle maximum. -/
def processSearchResults (k : Kind) (cfg : EngagementConfig)
    (post : String → Bool) :
    CycleState → List (Except Unit (List Reply)) → CycleState
  | s, [] => s
  | s, sr :: rest =>
      if maxFor cfg k ≤ s.count then s
      else
        processSearchResults k cfg post
          (match sr with
           | .error _ => s
           | .ok replies => processReplyList k cfg post s replies) rest

/-- One engagement cycle of kind `k` (`process_replies` for `.reply`,
`process_reposts` for `.repost`): when `is_engagement_time()` is false the
cycle returns immediately; otherwise it runs the two nested loops starting
from a zero counter and finally calls `save_processed_interactions` once. -/
def processCycle (k : Kind) (cfg : EngagementConfig)
    (engagement_time : Bool) (post : String → Bool)
    (L : InteractionLedger) (srs : List (Except Unit (List Reply))) :
    CycleState :=
  if engagement_time then
    { processSearchResults k cfg post ⟨L, 0, []⟩ srs with
      events := (processSearchResults k cfg post ⟨L, 0, []⟩ srs).events
        ++ [Event.persistEv (save_processed_interactions
              (processSearchResults k cfg post ⟨L, 0, []⟩ srs).ledger)] }
  else ⟨L, 0, []⟩

/-- `process_replies` as an instance of the generic cycle. -/
def process_replies (cfg : EngagementConfig) (engagement_time : Bool)
    (post : String → Bool) (L : InteractionLedger)
    (srs : List (Except Unit (List Reply))) : CycleState :=
  processCycle .reply cfg engagement_time post L srs

/-- `process_reposts` as an instance of the generic cycle. -/
def process_reposts (cfg : EngagementConfig) (engagement_time : Bool)
    (post : String → Bool) (L : InteractionLedger)
    (srs : List (Except Unit (List Reply))) : CycleState :=
  processCycle .repost cfg engagement_time post L srs

/-- Number of running invocations per task kind, for the scheduling set up
by `start_scheduler`. -/
structure SchedulerState where
  runningReplies : Nat
  runningReposts : Nat
deriving Repr, DecidableEq

/-- Scheduling events: a timer fire for a kind, or the termination of one
running invocation of a kind. -/
inductive SchedEvent where
  | fire (k : Kind)
  | finish (k : Kind)
deriving Repr, DecidableEq

/-- Effect of a scheduling event on the running counts.  A timer fire
models the registered job of `start_scheduler`, which unconditionally
starts a new daemon thread running the task
(`threading.Thread(target=..., daemon=True).start()`); a finish marks one
running invocation ending. -/
def stepSched (st : SchedulerState) : SchedEvent → SchedulerState
  | .fire .reply => { st with runningReplies := st.runningReplies + 1 }
  | .fire .repost => { st with runningReposts := st.runningReposts + 1 }
  | .finish .reply => { st with runningReplies := st.runningReplies - 1 }
  | .finish .repost => { st with runningReposts := st.runningReposts - 1 }

/-- Running counts after a sequence of scheduling events, starting with no
invocation running. -/
def runSched (es : List SchedEvent) : SchedulerState :=
  es.foldl stepSched ⟨0, 0⟩

/-- Running count of a scheduler state for a kind. -/
def runningFor (st : SchedulerState) : Kind → Nat
  | .reply => st.runningReplies
  | .repost => st.runningReposts

-- Invariant lemmas for the engagement cycle

theorem hasActed_foldl (k : Kind) (X : String) :
    ∀ (ops : List (Kind × String)) (L : InteractionLedger),
      hasActed L k X = true →
      hasActed (ops.foldl (fun M p => recordActed M p.1 p.2) L) k X = true := by
  intro ops
  induction ops with
  | nil => intro L h; exact h
  | cons p rest ih =>
      intro L h
      exact ih _ (hasActed_mono _ _ _ _ _ h)

theorem processOneReply_inv (k : Kind) (cfg : EngagementConfig)
    (post : String → Bool) (s : CycleState) (r : Reply) (X : String)
    (h1 : hasActed s.ledger k X = true)
    (h2 : Event.act X ∉ s.events) :
    hasActed (processOneReply k cfg post s r).ledger k X = true ∧
      Event.act X ∉ (processOneReply k cfg post s r).events := by
  unfold processOneReply
  split
  · exact ⟨h1, h2⟩
  · split
    · exact ⟨h1, h2⟩
    · split
      · exact ⟨h1, h2⟩
      · split
        · rename_i hna _ _ _
          have hne : X ≠ r.id := by
            intro hEq
            rw [hEq] at h1
            simp [h1] at hna
          constructor
          · exact hasActed_mono _ _ _ _ _ h1
          · simp only [List.mem_append, List.mem_cons, List.mem_singleton]
            rintro (h | h | h | h)
            · exact h2 h
            · exact hne (by injection h)
            · exact Event.noConfusion h
            · exact List.not_mem_nil _ h
        · exact ⟨h1, h2⟩

theorem processReplyList_inv (k : Kind) (cfg : EngagementConfig)
    (post : String → Bool) (X : String) :
    ∀ (rs : List Reply) (s : CycleState),
      hasActed s.ledger k X = true → Event.act X ∉ s.events →
      hasActed (processReplyList k cfg post s rs).ledger k X = true ∧
        Event.act X ∉ (processReplyList k cfg post s rs).events := by
  intro rs
  induction rs with
  | nil => intro s h1 h2; exact ⟨h1, h2⟩
  | cons r rest ih =>
      intro s h1 h2
      have h' := processOneReply_inv k cfg post s r X h1 h2
      unfold processReplyList
      split
      · exact h'
      · exact ih _ h'.1 h'.2

theorem processSearchResults_inv (k : Kind) (cfg : EngagementConfig)
    (post : String → Bool) (X : String) :
    ∀ (srs : List (Except Unit (List Reply))) (s : CycleState),
      hasActed s.ledger k X = true → Event.act X ∉ s.events →
      hasActed (processSearchResults k cfg post s srs).ledger k X = true ∧
        Event.act X ∉ (processSearchResults k cfg post s srs).events := by
  intro srs
  induction srs with
  | nil => intro s h1 h2; exact ⟨h1, h2⟩
  | cons sr rest ih =>
      intro s h1 h2
      unfold processSearchResults
      split
      · exact ⟨h1, h2⟩
      · cases sr with
        | error e => exact ih _ h1 h2
        | ok replies =>
            have h' := processReplyList_inv k cfg post X replies s h1 h2
            exact ih _ h'.1 h'.2

/-- C1: for every interaction kind and identifier X, after `recordActed`
puts X into the relevant set any further sequence of `recordActed` calls
leaves `hasActed(kind, X)` true, a repeated `recordActed(kind, X)` leaves
the ledger unchanged (set semantics), and an engagement cycle of that kind
starting from a ledger containing X never performs the remote action for a
candidate with id X again. -/
theorem c1_ledger_idempotent_never_again (k : Kind) (X : String)
    (L : InteractionLedger) :
    (∀ ops : List (Kind × String),
        hasActed (ops.foldl (fun M p => recordActed M p.1 p.2)
          (recordActed L k X)) k X = true)
    ∧ recordActed (recordActed L k X) k X = recordActed L k X
    ∧ (hasActed L k X = true →
        ∀ (cfg : EngagementConfig) (et : Bool) (post : String → Bool)
          (srs : List (Except Unit (List Reply))),
          Event.act X ∉ (processCycle k cfg et post L srs).events) := by
  refine ⟨?_, recordActed_idem L k X, ?_⟩
  · intro ops
    exact hasActed_foldl k X ops _ (hasActed_recordActed_self L k X)
  · intro h cfg et post srs
    unfold processCycle
    split
    · have h' := processSearchResults_inv k cfg post X srs ⟨L, 0, []⟩ h
        (by simp)
      simp only [List.mem_append, List.mem_singleton]
      rintro (hm | hm)
      · exact h'.2 hm
      · exact Event.noConfusion hm
    · simp

/-- Sample engagement configuration used by concrete witness runs. -/
def sampleCfg : EngagementConfig :=
  ⟨5, 3, [String.toList "spam"], "bot"⟩

/-- Concrete instance of the C1 theorem: with "x" already recorded as
replied to, a later record of "y" keeps `hasActed` true, recording "x"
again changes nothing, and a cycle offered a candidate with id "x" emits no
action for it. -/
theorem c1_witness :
    hasActed (List.foldl (fun M p => recordActed M p.1 p.2)
        (recordActed (⟨["x"], []⟩ : InteractionLedger) .reply "x")
        [(Kind.repost, "y")]) .reply "x" = true
    ∧ recordActed (recordActed (⟨["x"], []⟩ : InteractionLedger) .reply "x")
        .reply "x" = recordActed (⟨["x"], []⟩ : InteractionLedger) .reply "x"
    ∧ Event.act "x" ∉ (processCycle .reply sampleCfg true (fun _ => true)
        (⟨["x"], []⟩ : InteractionLedger)
        [Except.ok [⟨"x", "u1", String.toList "hi"⟩]]).events := by
  have h := c1_ledger_idempotent_never_again .reply "x"
    (⟨["x"], []⟩ : InteractionLedger)
  exact ⟨h.1 [(Kind.repost, "y")], h.2.1,
    h.2.2 (by decide) sampleCfg true (fun _ => true)
      [Except.ok [⟨"x", "u1", String.toList "hi"⟩]]⟩

theorem processOneReply_mono (k : Kind) (cfg : EngagementConfig)
    (post : String → Bool) (s : CycleState) (r : Reply) (X : String)
    (h : hasActed s.ledger k X = true) :
    hasActed (processOneReply k cfg post s r).ledger k X = true := by
  unfold processOneReply
  split
  · exact h
  split
  · exact h
  split
  · exact h
  split
  · exact hasActed_mono _ _ _ _ _ h
  · exact h

theorem processReplyList_mono (k : Kind) (cfg : EngagementConfig)
    (post : String → Bool) (X : String) :
    ∀ (rs : List Reply) (s : CycleState), hasActed s.ledger k X = true →
      hasActed (processReplyList k cfg post s rs).ledger k X = true := by
  intro rs
  induction rs with
  | nil => intro s h; exact h
  | cons r rest ih =>
      intro s h
      unfold processReplyList
      split
      · exact processOneReply_mono k cfg post s r X h
      · exact ih _ (processOneReply_mono k cfg post s r X h)

theorem processSearchResults_mono (k : Kind) (cfg : EngagementConfig)
    (post : String → Bool) (X : String) :
    ∀ (srs : List (Except Unit (List Reply))) (s : CycleState),
      hasActed s.ledger k X = true →
      hasActed (processSearchResults k cfg post s srs).ledger k X = true := by
  intro srs
  induction srs with
  | nil => intro s h; exact h
  | cons sr rest ih =>
      intro s h
      unfold processSearchResults
      split
      · exact h
      · cases sr with
        | error e => exact ih _ h
        | ok replies =>
            exact ih _ (processReplyList_mono k cfg post X replies s h)

theorem processOneReply_shape (k : Kind) (cfg : EngagementConfig)
    (post : String → Bool) (s : CycleState) (r : Reply) :
    processOneReply k cfg post s r = s ∨
    ((processOneReply k cfg post s r).ledger = recordActed s.ledger k r.id ∧
      (processOneReply k cfg post s r).events
        = s.events ++ [Event.act r.id, Event.record r.id]) := by
  unfold processOneReply
  split
  · exact Or.inl rfl
  split
  · exact Or.inl rfl
  split
  · exact Or.inl rfl
  split
  · exact Or.inr ⟨rfl, rfl⟩
  · exact Or.inl rfl

/-- Shape of a successful act in the event list: the action event followed
immediately by its record event. -/
def actRecordShape : List String → List Event
  | [] => []
  | id :: rest => Event.act id :: Event.record id :: actRecordShape rest

theorem actRecordShape_app (a b : List String) :
    actRecordShape (a ++ b) = actRecordShape a ++ actRecordShape b := by
  induction a with
  | nil => simp [actRecordShape]
  | cons x rest ih => simp [actRecordShape, ih]

theorem processReplyList_shape (k : Kind) (cfg : EngagementConfig)
    (post : String → Bool) :
    ∀ (rs : List Reply) (s : CycleState), ∃ ids : List String,
      (processReplyList k cfg post s rs).events
          = s.events ++ actRecordShape ids ∧
      ∀ id ∈ ids,
        hasActed (processReplyList k cfg post s rs).ledger k id = true := by
  intro rs
  induction rs with
  | nil =>
      intro s
      exact ⟨[], by simp [processReplyList, actRecordShape], by simp⟩
  | cons r rest ih =>
      intro s
      unfold processReplyList
      split
      · rcases processOneReply_shape k cfg post s r with h | ⟨hl, he⟩
        · exact ⟨[], by rw [h]; simp [actRecordShape], by simp⟩
        · refine ⟨[r.id], ?_, ?_⟩
          · rw [he]; simp [actRecordShape]
          · intro id hid
            simp only [List.mem_singleton] at hid
            subst hid
            rw [hl]
            exact hasActed_recordActed_self _ _ _
      · rcases processOneReply_shape k cfg post s r with h | ⟨hl, he⟩
        · rw [h]
          exact ih s
        · rcases ih (processOneReply k cfg post s r) with ⟨ids, hie, him⟩
          refine ⟨r.id :: ids, ?_, ?_⟩
          · rw [hie, he]; simp [actRecordShape]
          · intro id hid
            rcases List.mem_cons.mp hid with h1 | h1
            · subst h1
              apply processReplyList_mono
              rw [hl]
              exact hasActed_recordActed_self _ _ _
            · exact him id h1

theorem processSearchResults_shape (k : Kind) (cfg : EngagementConfig)
    (post : String → Bool) :
    ∀ (srs : List (Except Unit (List Reply))) (s : CycleState),
      ∃ ids : List String,
        (processSearchResults k cfg post s srs).events
            = s.events ++ actRecordShape ids ∧
        ∀ id ∈ ids,
          hasActed (processSearchResults k cfg post s srs).ledger k id
            = true := by
  intro srs
  induction srs with
  | nil =>
      intro s
      exact ⟨[], by simp [processSearchResults, actRecordShape], by simp⟩
  | cons sr rest ih =>
      intro s
      unfold processSearchResults
      split
      · exact ⟨[], by simp [actRecordShape], by simp⟩
      · cases sr with
        | error e => exact ih s
        | ok replies =>
            rcases processReplyList_shape k cfg post replies s
              with ⟨ids1, he1, hm1⟩
            rcases ih (processReplyList k cfg post s replies)
              with ⟨ids2, he2, hm2⟩
            refine ⟨ids1 ++ ids2, ?_, ?_⟩
            · rw [he2, he1]
              simp [actRecordShape_app]
            · intro id hid
              rcases List.mem_append.mp hid with h1 | h1
              · exact processSearchResults_mono k cfg post id rest _
                  (hm1 id h1)
              · exact hm2 id h1

/-- Checker for the flush discipline the claim states of a cycle's event
trace: between any two successful remote actions a flush of the ledger to
storage must occur.  The Boolean argument records whether an action has
been seen with no flush since. -/
def persistSeparatesActs : Bool → List Event → Bool
  | _, [] => true
  | true, Event.act _ :: _ => false
  | false, Event.act _ :: rest => persistSeparatesActs true rest
  | _, Event.persistEv _ :: rest => persistSeparatesActs false rest
  | b, Event.record _ :: rest => persistSeparatesActs b rest

/-- C2 counterexample: a reply cycle that acts on two candidates emits both
remote actions with no flush of the ledger between them — the single
`save_processed_interactions` call happens only at the end of the cycle, so
the claimed flush-before-the-next-action discipline fails on this run. -/
theorem c2_counterexample :
    persistSeparatesActs false
      (processCycle .reply sampleCfg true (fun _ => true) emptyLedger
        [Except.ok [⟨"r1", "u1", String.toList "hi"⟩,
                    ⟨"r2", "u2", String.toList "yo"⟩]]).events = false := by
  decide

/-- C2 amended: during a cycle each acted candidate's id is added to the
in-memory set immediately after its remote action succeeds (the event trace
is a sequence of act/record pairs), every id so acted is in the final
ledger, and the ledger is flushed to storage exactly once, at the end of
the cycle after all candidates — not between candidates — so a crash
mid-cycle can lose every id acted in that cycle (up to the per-cycle
maximum of duplicate actions on restart, not at most one). -/
theorem c2_single_flush_at_end (k : Kind) (cfg : EngagementConfig)
    (post : String → Bool) (L : InteractionLedger)
    (srs : List (Except Unit (List Reply))) :
    ∃ ids : List String,
      (processCycle k cfg true post L srs).events
          = actRecordShape ids
            ++ [Event.persistEv (save_processed_interactions
                  (processCycle k cfg true post L srs).ledger)]
      ∧ ids.all
          (fun id => hasActed (processCycle k cfg true post L srs).ledger k id)
          = true := by
  rcases processSearchResults_shape k cfg post srs ⟨L, 0, []⟩
    with ⟨ids, he, hm⟩
  refine ⟨ids, ?_, ?_⟩
  · show (processSearchResults k cfg post ⟨L, 0, []⟩ srs).events
        ++ [Event.persistEv (save_processed_interactions
              (processSearchResults k cfg post ⟨L, 0, []⟩ srs).ledger)]
      = _
    rw [he]
    simp [processCycle]
  · apply List.all_eq_true.mpr
    intro id hid
    show hasActed (processSearchResults k cfg post ⟨L, 0, []⟩ srs).ledger k id
        = true
    exact hm id hid

theorem idsOf_map_jstr (l : List String) :
    idsOf (l.map JsonValue.jstr) = some l := by
  induction l with
  | nil => rfl
  | cons s rest ih => simp [idsOf, ih]

theorem decodeStored_encodeStored (d : StoredData) :
    decodeStored (encodeStored d) = some d := by
  simp [decodeStored, encodeStored, jget, idsOf_map_jstr]

theorem contains_dedup (l : List String) (a : String) :
    (l.dedup).contains a = l.contains a := by
  simp [List.contains, List.elem_eq_mem, List.mem_dedup]

/-- C3: persisting a ledger state S and loading the written JSON document
back yields a ledger whose `hasActed` answers agree with S on every kind
and every id (in particular on every id recorded in S). -/
theorem c3_persist_load_round_trip (S : InteractionLedger) (k : Kind)
    (id : String) :
    hasActed (load_processed_interactions
        (.parsed (encodeStored (save_processed_interactions S)))) k id
      = hasActed S k id := by
  simp only [load_processed_interactions, decodeStored_encodeStored,
    save_processed_interactions]
  cases k <;> simp [hasActed, ledgerSet, contains_dedup]

/-- C4: whenever the store is missing, its contents fail to parse, or the
parsed value makes the loader's extraction raise, the loader returns the
ledger with both sets empty; the loader is a total function of the storage
state, so no exception ever reaches the caller. -/
theorem c4_load_fails_soft (fs : FileState) :
    (fs = .missing ∨ fs = .unparseable ∨
      ∃ v, fs = .parsed v ∧ decodeStored v = none) →
    load_processed_interactions fs = emptyLedger := by
  rintro (rfl | rfl | ⟨v, rfl, hv⟩) <;>
    simp [load_processed_interactions, *]

/-- Concrete instances of the C4 theorem: a missing file, an unparseable
file, and a parseable file holding a bare number all load as the empty
ledger. -/
theorem c4_witness :
    load_processed_interactions .missing = emptyLedger ∧
    load_processed_interactions .unparseable = emptyLedger ∧
    load_processed_interactions (.parsed (.jnum 5)) = emptyLedger :=
  ⟨c4_load_fails_soft _ (Or.inl rfl),
   c4_load_fails_soft _ (Or.inr (Or.inl rfl)),
   c4_load_fails_soft _ (Or.inr (Or.inr ⟨_, rfl, rfl⟩))⟩

/-- C5: when the snapshot is not valid (so the external fetch is attempted)
and the fetch fails while a previously obtained snapshot exists, the lookup
serves that stale snapshot filtered to the requested window, and the stored
snapshot and its fetch timestamp are left untouched. -/
theorem c5_stale_fallback (c : TweetsCache) (now hours : Int)
    (ts : List Tweet) (hinv : is_cache_valid c now = false)
    (hdata : c.data = some ts) :
    get_recent_bot_tweets c now hours (.error ())
      = (filterRecent now hours ts, c) := by
  simp [get_recent_bot_tweets, hinv, hdata]

/-- Concrete instance of the C5 theorem: an expired cache holding one tweet,
a failing fetch — the tweet is served from the stale snapshot and the cache
is unchanged. -/
theorem c5_witness :
    get_recent_bot_tweets
        ⟨some [⟨"t1", String.toList "a", some 500⟩], some 0, 15⟩ 1000 24
        (.error ())
      = ([⟨"t1", String.toList "a", some 500⟩],
         ⟨some [⟨"t1", String.toList "a", some 500⟩], some 0, 15⟩) := by
  rw [c5_stale_fallback _ _ _ [⟨"t1", String.toList "a", some 500⟩]
    (by decide) rfl]
  decide

/-- C6 counterexample: with an expired snapshot in the cache, a successful
external fetch that returns no tweets leaves the cache exactly as it was —
the snapshot is not replaced by the empty sequence and the fetch timestamp
is not updated to the current time, contrary to the claim. -/
theorem c6_counterexample :
    is_cache_valid ⟨some [⟨"t0", String.toList "a", some 0⟩], some 0, 15⟩
        1000000 = false
    ∧ (get_recent_bot_tweets
          ⟨some [⟨"t0", String.toList "a", some 0⟩], some 0, 15⟩ 1000000 24
          (.ok [])).2
        = ⟨some [⟨"t0", String.toList "a", some 0⟩], some 0, 15⟩
    ∧ ¬((get_recent_bot_tweets
          ⟨some [⟨"t0", String.toList "a", some 0⟩], some 0, 15⟩ 1000000 24
          (.ok [])).2.data = some []
        ∧ (get_recent_bot_tweets
            ⟨some [⟨"t0", String.toList "a", some 0⟩], some 0, 15⟩ 1000000 24
            (.ok [])).2.timestamp = some 1000000) := by
  refine ⟨by decide, by decide, ?_⟩
  decide

/-- C6 amended: a successful external fetch that returns a nonempty
sequence of posts replaces the stored snapshot wholesale and sets the fetch
timestamp to the current time (no partial merge); a successful fetch that
returns an empty sequence, however, leaves the cache untouched and the
lookup returns no posts. -/
theorem c6_refill_replaces_when_nonempty (c : TweetsCache) (now hours : Int)
    (ts : List Tweet) (hinv : is_cache_valid c now = false) :
    (ts ≠ [] →
      get_recent_bot_tweets c now hours (.ok ts)
        = (filterRecent now hours ts,
           { c with data := some ts, timestamp := some now }))
    ∧ (ts = [] → get_recent_bot_tweets c now hours (.ok ts) = ([], c)) := by
  constructor
  · intro hne
    simp [get_recent_bot_tweets, hinv, List.isEmpty_iff, hne]
  · intro he
    subst he
    simp [get_recent_bot_tweets, hinv]

/-- Concrete instance of the amended C6 theorem: an expired cache, a
successful fetch of one tweet — the snapshot and timestamp are replaced
wholesale. -/
theorem c6_witness :
    get_recent_bot_tweets
        ⟨some [⟨"t0", String.toList "a", some 0⟩], some 0, 15⟩ 1000 24
        (.ok [⟨"t1", String.toList "b", some 950⟩])
      = ([⟨"t1", String.toList "b", some 950⟩],
         ⟨some [⟨"t1", String.toList "b", some 950⟩], some 1000, 15⟩) := by
  rw [(c6_refill_replaces_when_nonempty
      ⟨some [⟨"t0", String.toList "a", some 0⟩], some 0, 15⟩ 1000 24
      [⟨"t1", String.toList "b", some 950⟩] (by decide)).1 (by decide)]
  decide

theorem mem_filterRecent (now hours : Int) (l : List Tweet) (t : Tweet) :
    t ∈ filterRecent now hours l ↔
      t ∈ l ∧ ∃ cst, t.created_at = some cst ∧ now - hours * 3600 ≤ cst := by
  constructor
  · intro h
    rcases List.mem_filter.mp h with ⟨hm, hc⟩
    refine ⟨hm, ?_⟩
    cases hca : t.created_at with
    | none => rw [hca] at hc; simp at hc
    | some cst =>
        rw [hca] at hc
        simp only [decide_eq_true_eq] at hc
        exact ⟨cst, rfl, hc⟩
  · rintro ⟨hm, cst, hca, hle⟩
    apply List.mem_filter.mpr
    refine ⟨hm, ?_⟩
    rw [hca]
    simp [hle]

/-- C10: on every path of the lookup (valid-cache hit, successful refill,
stale fallback) every returned tweet carries a present `created_at`
timestamp inside the window — a tweet with no `created_at` is never
returned — and the age cutoff is inclusive: the recency filter keeps a
tweet created exactly at `now - hours`, and in particular a valid cache
serving a snapshot containing such a boundary tweet returns it. -/
theorem c10_absent_timestamp_excluded_cutoff_inclusive (c : TweetsCache)
    (now hours : Int) (fetch : Except Unit (List Tweet)) :
    (∀ t ∈ (get_recent_bot_tweets c now hours fetch).1,
        ∃ cst, t.created_at = some cst ∧ now - hours * 3600 ≤ cst)
    ∧ (∀ (l : List Tweet) (t : Tweet), t ∈ l →
        t.created_at = some (now - hours * 3600) →
        t ∈ filterRecent now hours l)
    ∧ (∀ (l : List Tweet) (t : Tweet), is_cache_valid c now = true →
        c.data = some l → t ∈ l →
        t.created_at = some (now - hours * 3600) →
        t ∈ (get_recent_bot_tweets c now hours fetch).1) := by
  refine ⟨?_, ?_, ?_⟩
  · intro t ht
    unfold get_recent_bot_tweets at ht
    split at ht
    · exact ((mem_filterRecent _ _ _ _).mp ht).2
    · cases fetch with
      | ok tdata =>
          simp only at ht
          split at ht
          · simp at ht
          · exact ((mem_filterRecent _ _ _ _).mp ht).2
      | error e =>
          simp only at ht
          cases hd : c.data with
          | none => rw [hd] at ht; simp at ht
          | some cached =>
              rw [hd] at ht
              exact ((mem_filterRecent _ _ _ _).mp ht).2
  · intro l t hm hca
    exact (mem_filterRecent _ _ _ _).mpr ⟨hm, _, hca, le_refl _⟩
  · intro l t hv hd hm hca
    unfold get_recent_bot_tweets
    rw [if_pos (by rw [hv])]
    simp only [hd, Option.getD_some]
    exact (mem_filterRecent _ _ _ _).mpr ⟨hm, _, hca, le_refl _⟩

/-- Concrete instance of the C10 theorem: a valid cache whose snapshot
holds a tweet created exactly at the window boundary serves that tweet. -/
theorem c10_witness :
    (⟨"tb", String.toList "a", some (1000 - 24 * 3600)⟩ : Tweet)
      ∈ (get_recent_bot_tweets
          ⟨some [⟨"tb", String.toList "a", some (1000 - 24 * 3600)⟩],
           some 990, 15⟩ 1000 24 (.error ())).1 := by
  exact (c10_absent_timestamp_excluded_cutoff_inclusive
      ⟨some [⟨"tb", String.toList "a", some (1000 - 24 * 3600)⟩],
       some 990, 15⟩ 1000 24 (.error ())).2.2
    [⟨"tb", String.toList "a", some (1000 - 24 * 3600)⟩]
    ⟨"tb", String.toList "a", some (1000 - 24 * 3600)⟩
    (by decide) rfl (by decide) rfl

theorem startsWith_iff :
    ∀ (needle hay : List Char),
      startsWith hay needle = true ↔ ∃ suf, hay = needle ++ suf := by
  intro needle
  induction needle with
  | nil => intro hay; simp [startsWith]
  | cons d ds ih =>
      intro hay
      cases hay with
      | nil => simp [startsWith]
      | cons c cs =>
          simp only [startsWith, Bool.and_eq_true, beq_iff_eq, ih cs,
            List.cons_append, List.cons.injEq]
          constructor
          · rintro ⟨rfl, suf, rfl⟩
            exact ⟨suf, rfl, rfl⟩
          · rintro ⟨suf, rfl, h2⟩
            exact ⟨rfl, suf, h2⟩

theorem containsSubstr_iff (needle : List Char) :
    ∀ hay, containsSubstr needle hay = true ↔
      ∃ pre suf, hay = pre ++ needle ++ suf := by
  intro hay
  induction hay with
  | nil =>
      simp only [containsSubstr, List.isEmpty_iff]
      constructor
      · rintro rfl
        exact ⟨[], [], rfl⟩
      · rintro ⟨pre, suf, h⟩
        rcases List.append_eq_nil.mp h.symm with ⟨h1, h2⟩
        exact (List.append_eq_nil.mp h1).2
  | cons c cs ih =>
      simp only [containsSubstr, Bool.or_eq_true, startsWith_iff, ih]
      constructor
      · rintro (⟨suf, h⟩ | ⟨pre, suf, h⟩)
        · exact ⟨[], suf, by simpa using h⟩
        · exact ⟨c :: pre, suf, by simp [h]⟩
      · rintro ⟨pre, suf, h⟩
        cases pre with
        | nil =>
            left
            exact ⟨suf, by simpa using h⟩
        | cons p ps =>
            right
            rw [List.cons_append, List.cons_append] at h
            injection h with h1 h2
            exact ⟨ps, suf, h2⟩

/-- C7 counterexample: with the configured keyword "SPAM" (uppercase) and
the candidate text "this is spam content", the keyword does occur in the
text under case-insensitive comparison, yet the filter does not drop the
candidate — the code lowercases only the text, never the keyword, so the
claimed match "regardless of the letter case of the configured keyword"
fails. -/
theorem c7_counterexample :
    contains_blacklisted_keywords [String.toList "SPAM"]
        (String.toList "this is spam content") = false
    ∧ containsSubstr (lowerStr (String.toList "SPAM"))
        (lowerStr (String.toList "this is spam content")) = true := by
  constructor
  · decide
  · decide

/-- C7 amended: filtering drops a candidate exactly when some configured
keyword occurs verbatim — in its configured letter case — as a contiguous
substring of the lowercased candidate text; the match is case-insensitive
in the candidate text but case-sensitive in the configured keyword, so a
lowercase keyword such as "spam" matches text of any case while an
uppercase keyword never matches. -/
theorem c7_blacklist_lowercases_text_only (kws : List (List Char))
    (t : List Char) :
    contains_blacklisted_keywords kws t = true ↔
      ∃ kw ∈ kws, ∃ pre suf, lowerStr t = pre ++ kw ++ suf := by
  simp [contains_blacklisted_keywords, List.any_eq_true, containsSubstr_iff]

/-- Concrete instance of the amended C7 theorem, the spec's scenario: the
lowercase keyword "spam" filters the text "this is SPAM content". -/
theorem c7_witness :
    contains_blacklisted_keywords [String.toList "spam"]
        (String.toList "this is SPAM content") = true := by
  exact (c7_blacklist_lowercases_text_only [String.toList "spam"]
      (String.toList "this is SPAM content")).mpr
    ⟨String.toList "spam", by simp,
     String.toList "this is ", String.toList " content", by decide⟩

theorem processOneReply_count (k : Kind) (cfg : EngagementConfig)
    (post : String → Bool) (s : CycleState) (r : Reply) :
    (processOneReply k cfg post s r).count = s.count ∨
      (processOneReply k cfg post s r).count = s.count + 1 := by
  unfold processOneReply
  split
  · exact Or.inl rfl
  split
  · exact Or.inl rfl
  split
  · exact Or.inl rfl
  split
  · exact Or.inr rfl
  · exact Or.inl rfl

theorem processReplyList_count (k : Kind) (cfg : EngagementConfig)
    (post : String → Bool) :
    ∀ (rs : List Reply) (s : CycleState), s.count < maxFor cfg k →
      (processReplyList k cfg post s rs).count ≤ maxFor cfg k := by
  intro rs
  induction rs with
  | nil => intro s h; exact Nat.le_of_lt h
  | cons r rest ih =>
      intro s h
      have hc := processOneReply_count k cfg post s r
      unfold processReplyList
      split
      · rcases hc with h1 | h1 <;> rw [h1] <;> omega
      · rename_i hn
        exact ih _ (by omega)

theorem processSearchResults_count (k : Kind) (cfg : EngagementConfig)
    (post : String → Bool) :
    ∀ (srs : List (Except Unit (List Reply))) (s : CycleState),
      s.count ≤ maxFor cfg k →
      (processSearchResults k cfg post s srs).count ≤ maxFor cfg k := by
  intro srs
  induction srs with
  | nil => intro s h; exact h
  | cons sr rest ih =>
      intro s h
      unfold processSearchResults
      split
      · exact h
      · rename_i hn
        cases sr with
        | error e => exact ih _ h
        | ok replies =>
            exact ih _ (processReplyList_count k cfg post replies s (by omega))

/-- C8: in every engagement cycle the per-kind action counter starts at
zero and ends at most at the configured per-cycle maximum; in particular a
reply cycle with a maximum of 2 and five eligible candidates acts on
exactly the first two (their action events appear, the other three ids are
never acted on), and both acted ids are in the ledger that the final
persist step writes. -/
theorem c8_quota_respected :
    (∀ (k : Kind) (cfg : EngagementConfig) (et : Bool)
        (post : String → Bool) (L : InteractionLedger)
        (srs : List (Except Unit (List Reply))),
      (processCycle k cfg et post L srs).count ≤ maxFor cfg k)
    ∧ (processCycle .reply ⟨2, 3, [String.toList "spam"], "bot"⟩ true
        (fun _ => true) emptyLedger
        [Except.ok [⟨"r1", "u1", String.toList "hello"⟩,
                    ⟨"r2", "u2", String.toList "hello"⟩,
                    ⟨"r3", "u3", String.toList "hello"⟩,
                    ⟨"r4", "u4", String.toList "hello"⟩,
                    ⟨"r5", "u5", String.toList "hello"⟩]]).count = 2
    ∧ (processCycle .reply ⟨2, 3, [String.toList "spam"], "bot"⟩ true
        (fun _ => true) emptyLedger
        [Except.ok [⟨"r1", "u1", String.toList "hello"⟩,
                    ⟨"r2", "u2", String.toList "hello"⟩,
                    ⟨"r3", "u3", String.toList "hello"⟩,
                    ⟨"r4", "u4", String.toList "hello"⟩,
                    ⟨"r5", "u5", String.toList "hello"⟩]]).events
        = [Event.act "r1", Event.record "r1", Event.act "r2",
           Event.record "r2", Event.persistEv ⟨["r2", "r1"], []⟩] := by
  refine ⟨?_, by decide, by decide⟩
  intro k cfg et post L srs
  unfold processCycle
  split
  · exact processSearchResults_count k cfg post srs ⟨L, 0, []⟩ (Nat.zero_le _)
  · exact Nat.zero_le _

/-- C9 counterexample: two timer fires of the reply task with no completion
between them leave two invocations of the same kind running — the second
fire is not rejected, so same-kind overlap does occur. -/
theorem c9_counterexample :
    runningFor (runSched [.fire .reply, .fire .reply]) .reply = 2
    ∧ ¬runningFor (runSched [.fire .reply, .fire .reply]) .reply ≤ 1 := by
  constructor
  · decide
  · decide

/-- C9 amended: each timer fire unconditionally starts a fresh daemon
thread running its task, regardless of how many invocations of the same
kind are still running — no fire is ever rejected, so consecutive
invocations of the same kind can overlap. -/
theorem c9_fire_never_rejected (es : List SchedEvent) (k : Kind) :
    runningFor (runSched (es ++ [.fire k])) k
      = runningFor (runSched es) k + 1 := by
  cases k <;>
    simp [runSched, List.foldl_append, stepSched, runningFor]
